import Mathlib

/-!
Verification of the mock-polygon generator
(`src/data/generate_mock_polygons.py`).

The generator is a functional pipeline: sample a candidate center and size
from the process-wide random stream, reject candidates that would wrap around
the poles or the antimeridian, select a shape family and rasterize it into a
closed ring of `[longitude, latitude]` points, and repeat `count` times to
build a GeoJSON FeatureCollection.

The embedding below is shallow: real-valued coordinates are `ℝ` with the
genuine `Real.cos` / `Real.sin` / `Real.pi`, and the random stream is made
explicit as a function from attempt index to the values that attempt consumes.
Python exceptions become an `Except` error type.
-/

open Real

set_option autoImplicit false

/-- A coordinate pair as emitted by the generator: `(longitude, latitude)`,
mirroring the GeoJSON `[lon, lat]` axis order of the Python point lists. -/
abbrev Point : Type := ℝ × ℝ

/-- The keyword arguments of `generate_random_polygon` /
`generate_mock_polygons` other than `count`, which is passed separately. -/
structure Params where
  min_size_km : ℝ
  max_size_km : ℝ
  min_vertices : ℕ
  max_vertices : ℕ
  include_circles : Bool
  include_ovals : Bool

/-- The values one iteration of the sampling loop of
`generate_random_polygon` consumes from the process-wide random stream:
`center_lat = random.uniform(-85, 85)`, `center_lon = random.uniform(-180,
180)`, `size_km = random.uniform(min_size_km, max_size_km)`, the index picked
by `random.choice(shape_types)`, and the orientation picked by
`random.choice([0, 1])` inside `_create_oval`.  The two `choice` draws are
consumed only on a non-wrapping attempt, which is necessarily the final
attempt, so indexing all five values by attempt number is a faithful
relabelling of the linear stream. -/
structure AttemptDraws where
  lat : ℝ
  lon : ℝ
  size : ℝ
  shapeIdx : ℕ
  orient : ℕ

/-- The wrap check `_would_wrap(center_lat, center_lon, lat_radius,
lon_radius)`: true when the candidate would cross a pole bound (`±85`) or the
dateline (`±180`). -/
def _would_wrap (center_lat center_lon lat_radius lon_radius : ℝ) : Prop :=
  center_lat + lat_radius > 85 ∨ center_lat - lat_radius < -85 ∨
    center_lon + lon_radius > 180 ∨ center_lon - lon_radius < -180

noncomputable instance would_wrap_decidable (a b c d : ℝ) :
    Decidable (_would_wrap a b c d) := by
  unfold _would_wrap; infer_instance

/-- The conversion `lat_radius_deg = size_km / 111.0`. -/
noncomputable def latRadiusDeg (size_km : ℝ) : ℝ := size_km / 111

/-- The conversion `lon_radius_deg = size_km / (111.0 *
math.cos(math.radians(center_lat)))`, where `math.radians(x) = x * π / 180`. -/
noncomputable def lonRadiusDeg (size_km center_lat : ℝ) : ℝ :=
  size_km / (111 * Real.cos (center_lat * Real.pi / 180))

/-- The vertex every rasterizer computes at sample `i` of `n`:
`angle = 2 * π * i / n`, `x = r_lon * cos(angle)`, `y = r_lat * sin(angle)`,
appended as `[center_lon + x, center_lat + y]`. -/
noncomputable def pointAt (center_lat center_lon r_lat r_lon : ℝ) (n i : ℕ) :
    Point :=
  (center_lon + r_lon * Real.cos (2 * Real.pi * i / n),
   center_lat + r_lat * Real.sin (2 * Real.pi * i / n))

/-- Ring closure `coordinates.append(coordinates[0])`: repeat the ring's
first vertex.  The Python code indexes `coordinates[0]`, so the list is
nonempty wherever this is executed; `headI` agrees with it there. -/
def closeRing (pts : List Point) : List Point := pts ++ [pts.headI]

/-- The rasterizer `_create_ngon(center_lat, center_lon, lat_radius, lon_radius, sides)`:
one vertex per `i in range(sides)` on the ellipse given by the two radii,
then the closing duplicate. -/
noncomputable def _create_ngon (center_lat center_lon lat_radius lon_radius : ℝ)
    (sides : ℕ) : List Point :=
  closeRing ((List.range sides).map
    (pointAt center_lat center_lon lat_radius lon_radius sides))

/-- The rasterizer `_create_circle(center_lat, center_lon, lat_radius, lon_radius)`:
64 samples with `avg_radius = (lat_radius + lon_radius) / 2` used on both
axes, then the closing duplicate. -/
noncomputable def _create_circle
    (center_lat center_lon lat_radius lon_radius : ℝ) : List Point :=
  closeRing ((List.range 64).map
    (pointAt center_lat center_lon ((lat_radius + lon_radius) / 2)
      ((lat_radius + lon_radius) / 2) 64))

/-- The rasterizer `_create_oval(center_lat, center_lon, lat_radius, lon_radius)` with the
drawn `orientation` made an explicit argument: orientation `0` stretches
east-west (`x = (lon_radius * 1.5) * cos`, `y = (lat_radius * 0.7) * sin`),
any other drawn value is orientation `1`, stretched north-south
(`x = (lon_radius * 0.7) * cos`, `y = (lat_radius * 1.5) * sin`);
64 samples, then the closing duplicate. -/
noncomputable def _create_oval (center_lat center_lon lat_radius lon_radius : ℝ)
    (orientation : ℕ) : List Point :=
  if orientation = 0 then
    closeRing ((List.range 64).map
      (pointAt center_lat center_lon (lat_radius * 0.7) (lon_radius * 1.5) 64))
  else
    closeRing ((List.range 64).map
      (pointAt center_lat center_lon (lat_radius * 1.5) (lon_radius * 0.7) 64))

/-- An entry of the `shape_types` list: the Python tuples `('ngon', k)`,
`('circle', None)` and `('oval', None)`. -/
inductive ShapeChoice where
  | ngon (k : ℕ)
  | circle
  | oval
  deriving DecidableEq

/-- The `shape_types` list built in `generate_random_polygon`: one
`('ngon', k)` entry for each `k` in `range(min_vertices, max_vertices + 1)`,
then `('circle', None)` if `include_circles`, then `('oval', None)` if
`include_ovals`. -/
def shape_types (p : Params) : List ShapeChoice :=
  (List.range' p.min_vertices (p.max_vertices + 1 - p.min_vertices)).map
      ShapeChoice.ngon ++
    (if p.include_circles then [ShapeChoice.circle] else []) ++
    (if p.include_ovals then [ShapeChoice.oval] else [])

/-- The `if/elif` dispatch of `generate_random_polygon` on the drawn shape
choice: the rasterized ring together with the `shape_type` string
(`f"{k}-gon"`, `"circle"`, `"oval"`). -/
noncomputable def rasterize (d : AttemptDraws) (c : ShapeChoice) :
    List Point × String :=
  match c with
  | .ngon k =>
      (_create_ngon d.lat d.lon (latRadiusDeg d.size)
        (lonRadiusDeg d.size d.lat) k, toString k ++ "-gon")
  | .circle =>
      (_create_circle d.lat d.lon (latRadiusDeg d.size)
        (lonRadiusDeg d.size d.lat), "circle")
  | .oval =>
      (_create_oval d.lat d.lon (latRadiusDeg d.size)
        (lonRadiusDeg d.size d.lat) d.orient, "oval")

/-- Failures of the generator: `exhausted` is the `RuntimeError` raised after
`max_attempts` rejected candidates; `indexError` is Python's `IndexError`
from `random.choice` on an empty `shape_types` list (reachable only with
vertex parameters violating the documented preconditions). -/
inductive GenError where
  | exhausted
  | indexError
  deriving DecidableEq

/-- The `for attempt in range(max_attempts)` loop of
`generate_random_polygon`, with `fuel` attempts remaining and `pos` the next
stream position: sample the attempt's draws, resample if `_would_wrap`,
otherwise rasterize `shape_types[shapeIdx]`.  On success it returns the result
with the next unconsumed stream position. -/
noncomputable def genPolyAux (p : Params) (rng : ℕ → AttemptDraws) :
    ℕ → ℕ → Except GenError ((List Point × String) × ℕ)
  | 0, _ => .error .exhausted
  | fuel + 1, pos =>
    let d := rng pos
    if _would_wrap d.lat d.lon (latRadiusDeg d.size) (lonRadiusDeg d.size d.lat)
    then
      genPolyAux p rng fuel (pos + 1)
    else
      match (shape_types p).get? d.shapeIdx with
      | none => .error .indexError
      | some c => .ok (rasterize d c, pos + 1)

/-- The function `generate_random_polygon`: the sampling loop with
`max_attempts = 100`. -/
noncomputable def generate_random_polygon (p : Params) (rng : ℕ → AttemptDraws)
    (pos : ℕ) : Except GenError ((List Point × String) × ℕ) :=
  genPolyAux p rng 100 pos

/-- One GeoJSON feature as assembled by `generate_mock_polygons`:
`properties.id`, the single ring of `geometry.coordinates` (the Python code
wraps the ring in a singleton list), and the `properties.shape` string. -/
structure Feature where
  id : ℕ
  ring : List Point
  shape : String

/-- The `for i in range(count)` loop of `generate_mock_polygons`: `n` features
still to generate, `i` features already generated (so the next id is `i + 1`),
`pos` the next stream position.  An exception from
`generate_random_polygon` aborts the whole batch. -/
noncomputable def genBatchAux (p : Params) (rng : ℕ → AttemptDraws) :
    ℕ → ℕ → ℕ → Except GenError (List Feature)
  | 0, _, _ => .ok []
  | n + 1, i, pos =>
    match generate_random_polygon p rng pos with
    | .error e => .error e
    | .ok (rs, pos') =>
      match genBatchAux p rng n (i + 1) pos' with
      | .error e => .error e
      | .ok rest => .ok ({ id := i + 1, ring := rs.1, shape := rs.2 } :: rest)

/-- The function `generate_mock_polygons(count, ...)`: the `features` list of the returned
FeatureCollection (its other fields are the constant strings
`"type": "FeatureCollection"` etc.). -/
noncomputable def generate_mock_polygons (p : Params) (count : ℕ)
    (rng : ℕ → AttemptDraws) : Except GenError (List Feature) :=
  genBatchAux p rng count 0 0

/-- The documented preconditions on Generation Parameters (spec §3, §6):
positive sizes with `min ≤ max`, vertex bounds `≥ 3` with `min ≤ max`. -/
def ValidParams (p : Params) : Prop :=
  1 ≤ p.min_size_km ∧ p.min_size_km ≤ p.max_size_km ∧
    3 ≤ p.min_vertices ∧ p.min_vertices ≤ p.max_vertices

/-- A draw record that the Python `random` module can actually produce for
parameters `p`: every `uniform(a, b)` value lies in `[a, b]` and every
`choice` index is in range. -/
def ValidDraw (p : Params) (d : AttemptDraws) : Prop :=
  -85 ≤ d.lat ∧ d.lat ≤ 85 ∧ -180 ≤ d.lon ∧ d.lon ≤ 180 ∧
    p.min_size_km ≤ d.size ∧ d.size ≤ p.max_size_km ∧
    d.shapeIdx < (shape_types p).length ∧ d.orient < 2

/-- A random stream all of whose draws are producible for parameters `p`. -/
def ValidStream (p : Params) (rng : ℕ → AttemptDraws) : Prop :=
  ∀ i, ValidDraw p (rng i)

/-- The candidate built from draw `d` fails the non-wrapping check. -/
def drawWraps (d : AttemptDraws) : Prop :=
  _would_wrap d.lat d.lon (latRadiusDeg d.size) (lonRadiusDeg d.size d.lat)

/-- Parameters that violate the documented precondition `min_size_km ≤
max_size_km` while keeping all other fields at their Python defaults. -/
def pBad : Params :=
  { min_size_km := 5, max_size_km := 1, min_vertices := 4, max_vertices := 6,
    include_circles := true, include_ovals := true }

/-- A stream whose every attempt draws center `(0, 0)`, size `3`, shape index
`0` and orientation `0`. -/
def rngBad : ℕ → AttemptDraws :=
  fun _ => { lat := 0, lon := 0, size := 3, shapeIdx := 0, orient := 0 }

/-- The single feature produced by the constant stream `rngBad`: a 4-gon at
center `(0, 0)` with size 3 km. -/
noncomputable def fBad : Feature :=
  { id := 1, ring := (rasterize (rngBad 0) (ShapeChoice.ngon 4)).1,
    shape := (rasterize (rngBad 0) (ShapeChoice.ngon 4)).2 }

/-- Valid parameters with circles and ovals disabled. -/
def pNg : Params :=
  { min_size_km := 1, max_size_km := 5000, min_vertices := 4, max_vertices := 6,
    include_circles := false, include_ovals := false }

/-- Valid parameters matching the Python defaults. -/
def pCirc : Params :=
  { min_size_km := 1, max_size_km := 5000, min_vertices := 4, max_vertices := 6,
    include_circles := true, include_ovals := true }

/-- A stream drawing center `(60, 0)`, size `2775` km and shape index `3`
(the `circle` entry) on every attempt.  All values are inside their uniform
ranges, and the candidate passes `_would_wrap`: `lat_radius = 25`,
`lon_radius = 2775 / (111·cos 60°) = 50`, `60 + 25 = 85 ≤ 85`,
`0 + 50 ≤ 180`. -/
def rngCirc : ℕ → AttemptDraws :=
  fun _ => { lat := 60, lon := 0, size := 2775, shapeIdx := 3, orient := 0 }

/-- The single feature produced by the constant stream `rngCirc`: a circle at
center `(60, 0)` with `lat_radius = 25` and `lon_radius = 50` degrees. -/
noncomputable def fCirc : Feature :=
  { id := 1, ring := (rasterize (rngCirc 0) ShapeChoice.circle).1,
    shape := (rasterize (rngCirc 0) ShapeChoice.circle).2 }

/-- A stream whose every candidate has `lat_radius = 1000` degrees and hence
always wraps over the poles. -/
def rngWrap : ℕ → AttemptDraws :=
  fun _ => { lat := 0, lon := 0, size := 111000, shapeIdx := 0, orient := 0 }

/-! ### Helper lemmas -/

lemma closeRing_length (pts : List Point) : (closeRing pts).length = pts.length + 1 := by
  simp [closeRing]

lemma closeRing_head_eq_getLast (pts : List Point) (h : pts ≠ []) :
    (closeRing pts).head? = (closeRing pts).getLast? := by
  cases pts with
  | nil => exact absurd rfl h
  | cons a t =>
    rw [closeRing, List.getLast?_concat]
    rfl

lemma headI_map_range {α : Type} [Inhabited α] (f : ℕ → α) (n : ℕ) (hn : 0 < n) :
    ((List.range n).map f).headI = f 0 := by
  cases n with
  | zero => omega
  | succ m => simp [List.range_succ_eq_map]

lemma mem_closeRing (pts : List Point) (hne : pts ≠ []) (pt : Point)
    (h : pt ∈ closeRing pts) : pt ∈ pts := by
  rcases List.mem_append.1 h with h | h
  · exact h
  · cases pts with
    | nil => exact absurd rfl hne
    | cons a t =>
      simp only [List.headI, List.mem_singleton] at h
      rw [h]
      exact List.mem_cons_self _ _

lemma genPolyAux_all_wrap (p : Params) (rng : ℕ → AttemptDraws) :
    ∀ fuel pos, (∀ k, k < fuel → drawWraps (rng (pos + k))) →
      genPolyAux p rng fuel pos = .error .exhausted := by
  intro fuel
  induction fuel with
  | zero => intro pos _; rfl
  | succ n ih =>
    intro pos h
    have h0 : drawWraps (rng pos) := by
      have := h 0 (Nat.succ_pos n)
      simpa using this
    simp only [drawWraps] at h0
    simp only [genPolyAux]
    rw [if_pos h0]
    exact ih (pos + 1) (fun k hk => by
      have := h (k + 1) (by omega)
      rwa [show pos + (k + 1) = pos + 1 + k by omega] at this)

lemma genBatchAux_len_ids (p : Params) (rng : ℕ → AttemptDraws) :
    ∀ n i pos fs, genBatchAux p rng n i pos = .ok fs →
      fs.length = n ∧ ∀ j (hj : j < fs.length), (fs.get ⟨j, hj⟩).id = i + j + 1 := by
  intro n
  induction n with
  | zero =>
    intro i pos fs h
    simp only [genBatchAux] at h
    cases h
    exact ⟨rfl, fun j hj => absurd hj (by simp)⟩
  | succ m ih =>
    intro i pos fs h
    simp only [genBatchAux] at h
    cases hg : generate_random_polygon p rng pos with
    | error e => rw [hg] at h; cases h
    | ok rp =>
      obtain ⟨rs, pos'⟩ := rp
      rw [hg] at h
      dsimp only at h
      cases hb : genBatchAux p rng m (i + 1) pos' with
      | error e => rw [hb] at h; cases h
      | ok rest =>
        rw [hb] at h
        cases h
        obtain ⟨hlen, hids⟩ := ih (i + 1) pos' rest hb
        refine ⟨by simpa using hlen, ?_⟩
        intro j hj
        cases j with
        | zero => simp
        | succ j' =>
          have hj' : j' < rest.length := by simpa using hj
          have hid := hids j' hj'
          have hred : ((({ id := i + 1, ring := rs.1, shape := rs.2 } : Feature)
              :: rest).get ⟨j' + 1, hj⟩).id = (rest.get ⟨j', hj'⟩).id := rfl
          rw [hred, hid]
          omega

lemma genPolyAux_ok_inv (p : Params) (rng : ℕ → AttemptDraws) :
    ∀ fuel pos rs pos', genPolyAux p rng fuel pos = .ok (rs, pos') →
      ∃ j c, ¬ drawWraps (rng j) ∧
        (shape_types p).get? (rng j).shapeIdx = some c ∧
        rs = rasterize (rng j) c := by
  intro fuel
  induction fuel with
  | zero => intro pos rs pos' h; cases h
  | succ n ih =>
    intro pos rs pos' h
    simp only [genPolyAux] at h
    by_cases hw : drawWraps (rng pos)
    · simp only [drawWraps] at hw
      rw [if_pos hw] at h
      exact ih (pos + 1) rs pos' h
    · have hw' := hw
      simp only [drawWraps] at hw'
      rw [if_neg hw'] at h
      cases hget : (shape_types p).get? (rng pos).shapeIdx with
      | none => rw [hget] at h; cases h
      | some c =>
        rw [hget] at h
        cases h
        exact ⟨pos, c, hw, hget, rfl⟩

lemma genBatchAux_mem_inv (p : Params) (rng : ℕ → AttemptDraws) :
    ∀ n i pos fs, genBatchAux p rng n i pos = .ok fs →
      ∀ f ∈ fs, ∃ j c, ¬ drawWraps (rng j) ∧
        (shape_types p).get? (rng j).shapeIdx = some c ∧
        f.ring = (rasterize (rng j) c).1 ∧ f.shape = (rasterize (rng j) c).2 := by
  intro n
  induction n with
  | zero =>
    intro i pos fs h
    simp only [genBatchAux] at h
    cases h
    intro f hf
    cases hf
  | succ m ih =>
    intro i pos fs h
    simp only [genBatchAux] at h
    cases hg : generate_random_polygon p rng pos with
    | error e => rw [hg] at h; cases h
    | ok rp =>
      obtain ⟨rs, pos'⟩ := rp
      rw [hg] at h
      dsimp only at h
      cases hb : genBatchAux p rng m (i + 1) pos' with
      | error e => rw [hb] at h; cases h
      | ok rest =>
        rw [hb] at h
        cases h
        intro f hf
        rcases List.mem_cons.1 hf with hf | hf
        · obtain ⟨j, c, hj1, hj2, hj3⟩ :=
            genPolyAux_ok_inv p rng 100 pos rs pos' hg
          subst hf
          exact ⟨j, c, hj1, hj2, by rw [hj3], by rw [hj3]⟩
        · exact ih (i + 1) pos' rest hb f hf

lemma cos_deg_pos (lat : ℝ) (h1 : -85 ≤ lat) (h2 : lat ≤ 85) :
    0 < Real.cos (lat * Real.pi / 180) := by
  apply Real.cos_pos_of_mem_Ioo
  have hp := Real.pi_pos
  have hm1 : 0 ≤ (lat + 85) * Real.pi := by
    apply mul_nonneg (by linarith) hp.le
  have hm2 : 0 ≤ (85 - lat) * Real.pi := by
    apply mul_nonneg (by linarith) hp.le
  constructor
  · show -(Real.pi / 2) < lat * Real.pi / 180
    nlinarith
  · show lat * Real.pi / 180 < Real.pi / 2
    nlinarith

lemma pointAt_radius_bounds (clat clon rlat rlon : ℝ) (n i : ℕ)
    (hlat : 0 ≤ rlat) (hlon : 0 ≤ rlon) :
    |(pointAt clat clon rlat rlon n i).1 - clon| ≤ rlon ∧
    |(pointAt clat clon rlat rlon n i).2 - clat| ≤ rlat := by
  constructor
  · show |clon + rlon * Real.cos (2 * Real.pi * i / n) - clon| ≤ rlon
    rw [add_sub_cancel_left, abs_mul, abs_of_nonneg hlon]
    exact mul_le_of_le_one_right hlon (Real.abs_cos_le_one _)
  · show |clat + rlat * Real.sin (2 * Real.pi * i / n) - clat| ≤ rlat
    rw [add_sub_cancel_left, abs_mul, abs_of_nonneg hlat]
    exact mul_le_of_le_one_right hlat (Real.abs_sin_le_one _)

lemma ngon_vertex_radius_bounds (clat clon rlat rlon : ℝ) (sides : ℕ)
    (hlat : 0 ≤ rlat) (hlon : 0 ≤ rlon) (hs : 1 ≤ sides) (pt : Point)
    (hpt : pt ∈ _create_ngon clat clon rlat rlon sides) :
    |pt.1 - clon| ≤ rlon ∧ |pt.2 - clat| ≤ rlat := by
  have hne : (List.range sides).map (pointAt clat clon rlat rlon sides) ≠ [] := by
    apply List.ne_nil_of_length_pos
    simpa using hs
  have hmem := mem_closeRing _ hne pt hpt
  obtain ⟨i, _, rfl⟩ := List.mem_map.1 hmem
  exact pointAt_radius_bounds clat clon rlat rlon sides i hlat hlon

lemma in_bounds_of_not_wrap (clat clon rlat rlon : ℝ) (pt : Point)
    (h1 : |pt.1 - clon| ≤ rlon) (h2 : |pt.2 - clat| ≤ rlat)
    (hnw : ¬ _would_wrap clat clon rlat rlon) :
    -85 ≤ pt.2 ∧ pt.2 ≤ 85 ∧ -180 ≤ pt.1 ∧ pt.1 ≤ 180 := by
  simp only [_would_wrap] at hnw
  push_neg at hnw
  obtain ⟨w1, w2, w3, w4⟩ := hnw
  rw [abs_le] at h1 h2
  exact ⟨by linarith [h2.1], by linarith [h2.2], by linarith [h1.1], by linarith [h1.2]⟩

lemma angle_inj_of_Ico (x y : ℝ) (hx0 : 0 ≤ x) (hx2 : x < 2 * Real.pi)
    (hy0 : 0 ≤ y) (hy2 : y < 2 * Real.pi)
    (hcos : Real.cos x = Real.cos y) (hsin : Real.sin x = Real.sin y) : x = y := by
  have h := Real.Angle.cos_sin_inj hcos hsin
  rw [Real.Angle.angle_eq_iff_two_pi_dvd_sub] at h
  obtain ⟨k, hk⟩ := h
  have habs : |x - y| < 2 * Real.pi := by
    rw [abs_sub_lt_iff]
    constructor <;> linarith
  have hk0 : k = 0 := by
    by_contra hne
    have h1 : (1 : ℝ) ≤ |(k : ℝ)| := by
      have := Int.one_le_abs hne
      exact_mod_cast this
    rw [hk, abs_mul, abs_of_pos Real.two_pi_pos] at habs
    have h2 : 2 * Real.pi * 1 ≤ 2 * Real.pi * |(k : ℝ)| :=
      mul_le_mul_of_nonneg_left h1 Real.two_pi_pos.le
    linarith
  rw [hk0] at hk
  push_cast at hk
  linarith

lemma sample_angle_nonneg (n i : ℕ) : 0 ≤ 2 * Real.pi * i / n := by
  positivity

lemma sample_angle_lt (n i : ℕ) (h : i < n) : 2 * Real.pi * i / n < 2 * Real.pi := by
  have hn : (0 : ℝ) < n := by
    have : 0 < n := Nat.pos_of_ne_zero (by omega)
    exact_mod_cast this
  rw [div_lt_iff₀ hn]
  have : (i : ℝ) < n := by exact_mod_cast h
  nlinarith [Real.two_pi_pos]

lemma sample_angle_inj (n i j : ℕ) (hn : 0 < n)
    (heq : 2 * Real.pi * i / n = 2 * Real.pi * j / n) : i = j := by
  have hnr : (0 : ℝ) < n := by exact_mod_cast hn
  have h1 := congrArg (· * (n : ℝ)) heq
  simp only [div_mul_cancel₀ _ hnr.ne'] at h1
  have h2 := mul_left_cancel₀ (ne_of_gt Real.two_pi_pos) h1
  exact_mod_cast h2

lemma pointAt_inj (clat clon rlat rlon : ℝ) (n : ℕ)
    (hlat : 0 < rlat) (hlon : 0 < rlon) (i j : ℕ) (hi : i < n) (hj : j < n)
    (heq : pointAt clat clon rlat rlon n i = pointAt clat clon rlat rlon n j) :
    i = j := by
  have h1 : clon + rlon * Real.cos (2 * Real.pi * i / n) =
      clon + rlon * Real.cos (2 * Real.pi * j / n) := congrArg Prod.fst heq
  have h2 : clat + rlat * Real.sin (2 * Real.pi * i / n) =
      clat + rlat * Real.sin (2 * Real.pi * j / n) := congrArg Prod.snd heq
  have hcos : Real.cos (2 * Real.pi * i / n) = Real.cos (2 * Real.pi * j / n) :=
    mul_left_cancel₀ (ne_of_gt hlon) (add_left_cancel h1)
  have hsin : Real.sin (2 * Real.pi * i / n) = Real.sin (2 * Real.pi * j / n) :=
    mul_left_cancel₀ (ne_of_gt hlat) (add_left_cancel h2)
  have hang := angle_inj_of_Ico _ _ (sample_angle_nonneg n i) (sample_angle_lt n i hi)
    (sample_angle_nonneg n j) (sample_angle_lt n j hj) hcos hsin
  exact sample_angle_inj n i j (Nat.pos_of_ne_zero (by omega)) hang

lemma ngon_vertices_nodup (clat clon rlat rlon : ℝ) (n : ℕ)
    (hlat : 0 < rlat) (hlon : 0 < rlon) :
    ((List.range n).map (pointAt clat clon rlat rlon n)).Nodup := by
  apply List.Nodup.map_on ?_ (List.nodup_range n)
  intro i hi j hj heq
  exact pointAt_inj clat clon rlat rlon n hlat hlon i j
    (List.mem_range.1 hi) (List.mem_range.1 hj) heq

lemma run_one (p : Params) (rng : ℕ → AttemptDraws) (c : ShapeChoice)
    (hnw : ¬ drawWraps (rng 0))
    (hget : (shape_types p).get? (rng 0).shapeIdx = some c) :
    generate_mock_polygons p 1 rng =
      .ok [{ id := 1, ring := (rasterize (rng 0) c).1,
             shape := (rasterize (rng 0) c).2 }] := by
  have hpoly : generate_random_polygon p rng 0 = .ok (rasterize (rng 0) c, 1) := by
    unfold generate_random_polygon
    rw [show (100 : ℕ) = 99 + 1 from rfl]
    simp only [genPolyAux]
    simp only [drawWraps] at hnw
    rw [if_neg hnw, hget]
  unfold generate_mock_polygons
  simp only [genBatchAux]
  rw [hpoly]


lemma rngBad_not_wrap : ¬ drawWraps (rngBad 0) := by
  simp only [drawWraps, rngBad, _would_wrap, latRadiusDeg, lonRadiusDeg]
  norm_num [Real.cos_zero]

lemma rngBad_get :
    (shape_types pBad).get? (rngBad 0).shapeIdx = some (ShapeChoice.ngon 4) := by
  rfl


lemma runBad : generate_mock_polygons pBad 1 rngBad = .ok [fBad] :=
  run_one pBad rngBad (ShapeChoice.ngon 4) rngBad_not_wrap rngBad_get


lemma rngBad_get_pNg :
    (shape_types pNg).get? (rngBad 0).shapeIdx = some (ShapeChoice.ngon 4) := by
  rfl

lemma runNg : generate_mock_polygons pNg 1 rngBad = .ok [fBad] :=
  run_one pNg rngBad (ShapeChoice.ngon 4) rngBad_not_wrap rngBad_get_pNg


lemma cos_sixty_deg : Real.cos ((60 : ℝ) * Real.pi / 180) = 1 / 2 := by
  rw [show (60 : ℝ) * Real.pi / 180 = Real.pi / 3 by ring]
  exact Real.cos_pi_div_three

lemma rngCirc_not_wrap : ¬ drawWraps (rngCirc 0) := by
  simp only [drawWraps, rngCirc, _would_wrap, latRadiusDeg, lonRadiusDeg]
  rw [cos_sixty_deg]
  norm_num

lemma rngCirc_get :
    (shape_types pCirc).get? (rngCirc 0).shapeIdx = some ShapeChoice.circle := by
  rfl


lemma runCirc : generate_mock_polygons pCirc 1 rngCirc = .ok [fCirc] :=
  run_one pCirc rngCirc ShapeChoice.circle rngCirc_not_wrap rngCirc_get

lemma gon_data : ("-gon" : String).data = ['-', 'g', 'o', 'n'] := rfl

lemma append_gon_ne_circle (s : String) : s ++ "-gon" ≠ "circle" := by
  intro h
  have hd := congrArg String.data h
  rw [String.data_append] at hd
  have hl := congrArg List.getLast? hd
  rw [List.getLast?_append] at hl
  rw [show (("-gon" : String).data.getLast?) = some 'n' from rfl] at hl
  rw [show (("circle" : String).data.getLast?) = some 'e' from rfl] at hl
  rw [show (some 'n').or (String.data s).getLast? = some 'n' from rfl] at hl
  exact absurd hl (by decide)

lemma append_gon_ne_oval (s : String) : s ++ "-gon" ≠ "oval" := by
  intro h
  have hd := congrArg String.data h
  rw [String.data_append] at hd
  have hl := congrArg List.getLast? hd
  rw [List.getLast?_append] at hl
  rw [show (("-gon" : String).data.getLast?) = some 'n' from rfl] at hl
  rw [show (("oval" : String).data.getLast?) = some 'l' from rfl] at hl
  rw [show (some 'n').or (String.data s).getLast? = some 'n' from rfl] at hl
  exact absurd hl (by decide)

lemma shape_types_no_curves (p : Params) (hc : p.include_circles = false)
    (ho : p.include_ovals = false) :
    shape_types p =
      (List.range' p.min_vertices (p.max_vertices + 1 - p.min_vertices)).map
        ShapeChoice.ngon := by
  simp [shape_types, hc, ho]

/-! ### Claim theorems -/

/-- C5: for every Ring produced by any of the three rasterizers (n-gon with
chosen vertex count `k ≥ 3`, circle, oval), the first point of the ring
equals the last point. -/
theorem c5_rings_closed (clat clon rlat rlon : ℝ) (sides orient : ℕ)
    (hs : 3 ≤ sides) :
    (_create_ngon clat clon rlat rlon sides).head? =
        (_create_ngon clat clon rlat rlon sides).getLast? ∧
    (_create_circle clat clon rlat rlon).head? =
        (_create_circle clat clon rlat rlon).getLast? ∧
    (_create_oval clat clon rlat rlon orient).head? =
        (_create_oval clat clon rlat rlon orient).getLast? := by
  refine ⟨?_, ?_, ?_⟩
  · apply closeRing_head_eq_getLast
    apply List.ne_nil_of_length_pos
    rw [List.length_map, List.length_range]
    omega
  · apply closeRing_head_eq_getLast
    apply List.ne_nil_of_length_pos
    rw [List.length_map, List.length_range]
    norm_num
  · unfold _create_oval
    by_cases h : orient = 0
    · rw [if_pos h]
      apply closeRing_head_eq_getLast
      apply List.ne_nil_of_length_pos
      rw [List.length_map, List.length_range]
      norm_num
    · rw [if_neg h]
      apply closeRing_head_eq_getLast
      apply List.ne_nil_of_length_pos
      rw [List.length_map, List.length_range]
      norm_num

/-- Witness for `c5_rings_closed` at center `(0, 0)`, radii `1`, `sides = 3`,
orientation `0`. -/
theorem c5_rings_closed_witness :
    (_create_ngon 0 0 1 1 3).head? = (_create_ngon 0 0 1 1 3).getLast? ∧
    (_create_circle 0 0 1 1).head? = (_create_circle 0 0 1 1).getLast? ∧
    (_create_oval 0 0 1 1 0).head? = (_create_oval 0 0 1 1 0).getLast? :=
  c5_rings_closed 0 0 1 1 3 0 (by norm_num)

/-- C7: every circle ring and every oval ring has exactly 65 points
(64 angle samples plus the closing duplicate). -/
theorem c7_circle_oval_point_count (clat clon rlat rlon : ℝ) (orient : ℕ) :
    (_create_circle clat clon rlat rlon).length = 65 ∧
    (_create_oval clat clon rlat rlon orient).length = 65 := by
  constructor
  · simp [_create_circle, closeRing]
  · unfold _create_oval
    by_cases h : orient = 0
    · rw [if_pos h]; simp [closeRing]
    · rw [if_neg h]; simp [closeRing]

/-- C6: the ring of an n-gon with chosen vertex count `k ≥ 3` (and positive
radii, as produced by the sampler) has exactly `k + 1` points: entry `i < k`
is the vertex at angle `2πi/k`, the `k` vertices are pairwise distinct, and
entry `k` is the closing duplicate of entry `0`. -/
theorem c6_ngon_ring_structure (clat clon rlat rlon : ℝ) (k : ℕ)
    (hk : 3 ≤ k) (hlat : 0 < rlat) (hlon : 0 < rlon) :
    (_create_ngon clat clon rlat rlon k).length = k + 1 ∧
    (∀ i, i < k → (_create_ngon clat clon rlat rlon k)[i]? =
      some (clon + rlon * Real.cos (2 * Real.pi * i / k),
            clat + rlat * Real.sin (2 * Real.pi * i / k))) ∧
    (_create_ngon clat clon rlat rlon k)[k]? =
      (_create_ngon clat clon rlat rlon k)[0]? ∧
    (_create_ngon clat clon rlat rlon k).dropLast.Nodup := by
  have hlen_pts :
      ((List.range k).map (pointAt clat clon rlat rlon k)).length = k := by
    simp
  have hget : ∀ i, i < k → (_create_ngon clat clon rlat rlon k)[i]? =
      some (pointAt clat clon rlat rlon k i) := by
    intro i hi
    unfold _create_ngon closeRing
    rw [List.getElem?_append_left (by rw [hlen_pts]; exact hi)]
    rw [List.getElem?_map, List.getElem?_range hi]
    rfl
  refine ⟨?_, ?_, ?_, ?_⟩
  · unfold _create_ngon
    rw [closeRing_length, hlen_pts]
  · intro i hi
    rw [hget i hi]
    rfl
  · have hlast := List.getElem?_concat_length
      ((List.range k).map (pointAt clat clon rlat rlon k))
      (((List.range k).map (pointAt clat clon rlat rlon k)).headI)
    rw [hlen_pts] at hlast
    have hk' : (_create_ngon clat clon rlat rlon k)[k]? =
        some (pointAt clat clon rlat rlon k 0) := by
      unfold _create_ngon closeRing
      rw [hlast, headI_map_range _ k (by omega)]
    rw [hk', hget 0 (by omega)]
  · unfold _create_ngon closeRing
    rw [List.dropLast_concat]
    exact ngon_vertices_nodup clat clon rlat rlon k hlat hlon

/-- Witness for `c6_ngon_ring_structure` at center `(0, 0)`, radii `1`,
`k = 3`. -/
theorem c6_ngon_ring_structure_witness :
    (_create_ngon 0 0 1 1 3).length = 3 + 1 ∧
    (∀ i : ℕ, i < 3 → (_create_ngon 0 0 1 1 3)[i]? =
      some (0 + 1 * Real.cos (2 * Real.pi * (i : ℝ) / ((3 : ℕ) : ℝ)),
            0 + 1 * Real.sin (2 * Real.pi * (i : ℝ) / ((3 : ℕ) : ℝ)))) ∧
    (_create_ngon 0 0 1 1 3)[3]? = (_create_ngon 0 0 1 1 3)[0]? ∧
    (_create_ngon 0 0 1 1 3).dropLast.Nodup :=
  c6_ngon_ring_structure 0 0 1 1 3 (by norm_num) (by norm_num) (by norm_num)

/-- C9: with identical parameters and an identical random stream, two batch
generation runs produce identical output. -/
theorem c9_deterministic (p : Params) (count : ℕ)
    (rng₁ rng₂ : ℕ → AttemptDraws) (h : ∀ i, rng₁ i = rng₂ i) :
    generate_mock_polygons p count rng₁ = generate_mock_polygons p count rng₂ := by
  rw [funext h]

/-- Witness for `c9_deterministic`: the same concrete stream twice. -/
theorem c9_deterministic_witness :
    generate_mock_polygons pBad 1 rngBad = generate_mock_polygons pBad 1 rngBad :=
  c9_deterministic pBad 1 rngBad rngBad (fun _ => rfl)

/-- C3: the sampler tries at most 100 candidates; if the first 100 draws all
fail the non-wrapping check, the polygon call raises the exhaustion error and
the whole batch (of any positive count) returns that error and no partial
feature list. -/
theorem c3_exhaustion_fatal (p : Params) (count : ℕ) (rng : ℕ → AttemptDraws)
    (hc : 0 < count) (hw : ∀ i, i < 100 → drawWraps (rng i)) :
    generate_mock_polygons p count rng = .error .exhausted := by
  have hpoly : generate_random_polygon p rng 0 = .error .exhausted := by
    unfold generate_random_polygon
    exact genPolyAux_all_wrap p rng 100 0 (fun k hk => by simpa using hw k hk)
  obtain ⟨n, rfl⟩ : ∃ n, count = n + 1 := ⟨count - 1, by omega⟩
  unfold generate_mock_polygons
  simp only [genBatchAux]
  rw [hpoly]


lemma rngWrap_wraps : ∀ i, i < 100 → drawWraps (rngWrap i) := by
  intro i _
  simp only [drawWraps, rngWrap, _would_wrap, latRadiusDeg]
  left
  norm_num

/-- Witness for `c3_exhaustion_fatal`: a size of 111000 km always wraps. -/
theorem c3_exhaustion_fatal_witness :
    generate_mock_polygons pCirc 1 rngWrap = .error .exhausted :=
  c3_exhaustion_fatal pCirc 1 rngWrap (by norm_num) rngWrap_wraps

/-- C4: a batch that returns a feature list of requested count `N` returns
exactly `N` features with ids `1..N` in order, and `count = 0` returns the
empty feature list rather than an error. -/
theorem c4_batch_count_ids (p : Params) (rng : ℕ → AttemptDraws) (N : ℕ)
    (fs : List Feature) (h : generate_mock_polygons p N rng = .ok fs) :
    generate_mock_polygons p 0 rng = .ok [] ∧
    fs.length = N ∧
    ∀ j (hj : j < fs.length), (fs.get ⟨j, hj⟩).id = j + 1 := by
  obtain ⟨hlen, hids⟩ := genBatchAux_len_ids p rng N 0 0 fs h
  exact ⟨rfl, hlen, fun j hj => by simpa using hids j hj⟩

/-- Witness for `c4_batch_count_ids`: a concrete one-feature run. -/
theorem c4_batch_count_ids_witness :
    generate_mock_polygons pBad 0 rngBad = .ok [] ∧
    ([fBad] : List Feature).length = 1 ∧
    ∀ j (hj : j < ([fBad] : List Feature).length),
      (([fBad] : List Feature).get ⟨j, hj⟩).id = j + 1 :=
  c4_batch_count_ids pBad rngBad 1 [fBad] runBad

/-- C10: every vertex of an n-gon ring lies within the sampled radii around
the center, and therefore within `[-85, 85] × [-180, 180]` whenever the
candidate passed the wrap check. -/
theorem c10_ngon_bounds (clat clon rlat rlon : ℝ) (sides : ℕ)
    (hlat : 0 ≤ rlat) (hlon : 0 ≤ rlon) (hs : 1 ≤ sides) (pt : Point)
    (hpt : pt ∈ _create_ngon clat clon rlat rlon sides) :
    |pt.1 - clon| ≤ rlon ∧ |pt.2 - clat| ≤ rlat ∧
    (¬ _would_wrap clat clon rlat rlon →
      -85 ≤ pt.2 ∧ pt.2 ≤ 85 ∧ -180 ≤ pt.1 ∧ pt.1 ≤ 180) := by
  obtain ⟨h1, h2⟩ :=
    ngon_vertex_radius_bounds clat clon rlat rlon sides hlat hlon hs pt hpt
  exact ⟨h1, h2, fun hnw => in_bounds_of_not_wrap clat clon rlat rlon pt h1 h2 hnw⟩

lemma pt0_mem_ngon : pointAt 0 0 1 1 3 0 ∈ _create_ngon 0 0 1 1 3 := by
  unfold _create_ngon closeRing
  apply List.mem_append_left
  exact List.mem_map.2 ⟨0, List.mem_range.2 (by norm_num), rfl⟩

/-- Witness for `c10_ngon_bounds`: the first vertex of a concrete 3-gon. -/
theorem c10_ngon_bounds_witness :
    |(pointAt 0 0 1 1 3 0).1 - 0| ≤ 1 ∧ |(pointAt 0 0 1 1 3 0).2 - 0| ≤ 1 ∧
    (¬ _would_wrap 0 0 1 1 →
      -85 ≤ (pointAt 0 0 1 1 3 0).2 ∧ (pointAt 0 0 1 1 3 0).2 ≤ 85 ∧
      -180 ≤ (pointAt 0 0 1 1 3 0).1 ∧ (pointAt 0 0 1 1 3 0).1 ≤ 180) :=
  c10_ngon_bounds 0 0 1 1 3 (by norm_num) (by norm_num) (by norm_num)
    (pointAt 0 0 1 1 3 0) pt0_mem_ngon

/-- C8: with circles and ovals disabled, the shape choice list has exactly one
entry per vertex count in `[min_vertices, max_vertices]`, every produced
feature's shape descriptor is `"k-gon"` for some `k` in that interval, and the
descriptors `"circle"` and `"oval"` never appear. -/
theorem c8_ngon_only_shapes (p : Params) (rng : ℕ → AttemptDraws) (N : ℕ)
    (fs : List Feature)
    (hc : p.include_circles = false) (ho : p.include_ovals = false)
    (hok : generate_mock_polygons p N rng = .ok fs) :
    (∀ k, p.min_vertices ≤ k → k ≤ p.max_vertices →
      (shape_types p).count (ShapeChoice.ngon k) = 1) ∧
    ∀ f ∈ fs, (∃ k, p.min_vertices ≤ k ∧ k ≤ p.max_vertices ∧
      f.shape = toString k ++ "-gon") ∧
      f.shape ≠ "circle" ∧ f.shape ≠ "oval" := by
  constructor
  · intro k hk1 hk2
    rw [shape_types_no_curves p hc ho]
    apply List.count_eq_one_of_mem
    · apply List.Nodup.map ?_ (List.nodup_range' _ _)
      intro a b hab
      injection hab
    · exact List.mem_map.2 ⟨k, List.mem_range'_1.2 ⟨hk1, by omega⟩, rfl⟩
  · intro f hf
    obtain ⟨j, c, _, hget, _, hshape⟩ :=
      genBatchAux_mem_inv p rng N 0 0 fs hok f hf
    have hmem : c ∈ shape_types p := List.get?_mem hget
    rw [shape_types_no_curves p hc ho] at hmem
    obtain ⟨k, hk, rfl⟩ := List.mem_map.1 hmem
    rw [List.mem_range'_1] at hk
    refine ⟨⟨k, hk.1, by omega, ?_⟩, ?_, ?_⟩
    · rw [hshape]
      rfl
    · rw [hshape]
      exact append_gon_ne_circle _
    · rw [hshape]
      exact append_gon_ne_oval _

lemma pNg_flags : pNg.include_circles = false ∧ pNg.include_ovals = false :=
  ⟨rfl, rfl⟩

/-- Witness for `c8_ngon_only_shapes`: the concrete no-curves run `runNg`. -/
theorem c8_ngon_only_shapes_witness :
    (∀ k, pNg.min_vertices ≤ k → k ≤ pNg.max_vertices →
      (shape_types pNg).count (ShapeChoice.ngon k) = 1) ∧
    ∀ f ∈ ([fBad] : List Feature),
      (∃ k, pNg.min_vertices ≤ k ∧ k ≤ pNg.max_vertices ∧
        f.shape = toString k ++ "-gon") ∧
      f.shape ≠ "circle" ∧ f.shape ≠ "oval" :=
  c8_ngon_only_shapes pNg rngBad 1 [fBad] rfl rfl runNg

/-- C1 (amended): with circles and ovals disabled, no vertex of any feature
produced by batch generation (from parameters satisfying the documented
preconditions and a stream of producible draws) has latitude outside
`[-85, 85]` or longitude outside `[-180, 180]`. -/
theorem c1_ngon_batch_in_bounds (p : Params) (rng : ℕ → AttemptDraws) (N : ℕ)
    (fs : List Feature) (hp : ValidParams p) (hv : ValidStream p rng)
    (hc : p.include_circles = false) (ho : p.include_ovals = false)
    (hok : generate_mock_polygons p N rng = .ok fs) :
    ∀ f ∈ fs, ∀ pt ∈ f.ring,
      -85 ≤ pt.2 ∧ pt.2 ≤ 85 ∧ -180 ≤ pt.1 ∧ pt.1 ≤ 180 := by
  intro f hf pt hpt
  obtain ⟨j, c, hw, hget, hring, _⟩ :=
    genBatchAux_mem_inv p rng N 0 0 fs hok f hf
  have hmem : c ∈ shape_types p := List.get?_mem hget
  rw [shape_types_no_curves p hc ho] at hmem
  obtain ⟨k, hk, rfl⟩ := List.mem_map.1 hmem
  rw [List.mem_range'_1] at hk
  obtain ⟨hd1, hd2, _, _, hd5, _, _, _⟩ := hv j
  have hsize : (0 : ℝ) ≤ (rng j).size := by linarith [hp.1]
  have hlat : 0 ≤ latRadiusDeg (rng j).size := by
    unfold latRadiusDeg
    apply div_nonneg hsize
    norm_num
  have hcos : 0 < Real.cos ((rng j).lat * Real.pi / 180) :=
    cos_deg_pos _ hd1 hd2
  have hlon : 0 ≤ lonRadiusDeg (rng j).size (rng j).lat := by
    unfold lonRadiusDeg
    apply div_nonneg hsize
    positivity
  have hsides : 1 ≤ k := by
    have := hp.2.2.1
    omega
  rw [hring] at hpt
  simp only [drawWraps] at hw
  obtain ⟨hb1, hb2⟩ := ngon_vertex_radius_bounds (rng j).lat (rng j).lon
    (latRadiusDeg (rng j).size) (lonRadiusDeg (rng j).size (rng j).lat)
    k hlat hlon hsides pt hpt
  exact in_bounds_of_not_wrap _ _ _ _ pt hb1 hb2 hw

lemma pNg_valid : ValidParams pNg := by
  refine ⟨?_, ?_, ?_, ?_⟩ <;> norm_num [pNg]

lemma rngBad_valid_pNg : ValidStream pNg rngBad := by
  intro i
  refine ⟨?_, ?_, ?_, ?_, ?_, ?_, ?_, ?_⟩
  · norm_num [rngBad]
  · norm_num [rngBad]
  · norm_num [rngBad]
  · norm_num [rngBad]
  · norm_num [rngBad, pNg]
  · norm_num [rngBad, pNg]
  · have h0 : (rngBad i).shapeIdx = 0 := rfl
    rw [h0]
    decide
  · norm_num [rngBad]

lemma fBad_pt_mem :
    pointAt 0 0 (latRadiusDeg 3) (lonRadiusDeg 3 0) 4 0 ∈ fBad.ring := by
  show pointAt 0 0 (latRadiusDeg 3) (lonRadiusDeg 3 0) 4 0 ∈
    _create_ngon 0 0 (latRadiusDeg 3) (lonRadiusDeg 3 0) 4
  unfold _create_ngon closeRing
  apply List.mem_append_left
  exact List.mem_map.2 ⟨0, List.mem_range.2 (by norm_num), rfl⟩

/-- Witness for `c1_ngon_batch_in_bounds`: the first vertex of the feature of
the concrete no-curves run. -/
theorem c1_ngon_batch_in_bounds_witness :
    -85 ≤ (pointAt 0 0 (latRadiusDeg 3) (lonRadiusDeg 3 0) 4 0).2 ∧
    (pointAt 0 0 (latRadiusDeg 3) (lonRadiusDeg 3 0) 4 0).2 ≤ 85 ∧
    -180 ≤ (pointAt 0 0 (latRadiusDeg 3) (lonRadiusDeg 3 0) 4 0).1 ∧
    (pointAt 0 0 (latRadiusDeg 3) (lonRadiusDeg 3 0) 4 0).1 ≤ 180 :=
  c1_ngon_batch_in_bounds pNg rngBad 1 [fBad] pNg_valid rngBad_valid_pNg
    rfl rfl runNg fBad (List.mem_singleton.2 rfl)
    (pointAt 0 0 (latRadiusDeg 3) (lonRadiusDeg 3 0) 4 0) fBad_pt_mem

lemma circ_lat_radius : latRadiusDeg (2775 : ℝ) = 25 := by
  unfold latRadiusDeg
  norm_num

lemma circ_lon_radius : lonRadiusDeg (2775 : ℝ) 60 = 50 := by
  unfold lonRadiusDeg
  rw [cos_sixty_deg]
  norm_num

/-- C1 counterexample: with the default parameters (which satisfy the
documented preconditions) and a stream of producible draws, batch generation
returns a circle feature one of whose vertices has latitude `97.5 > 85`: the
wrap check bounds the candidate by `lat_radius`, but `_create_circle` applies
the larger averaged radius `(lat_radius + lon_radius) / 2` to the latitude
axis. -/
theorem c1_counterexample :
    ValidParams pCirc ∧ ValidStream pCirc rngCirc ∧
    ∃ fs, generate_mock_polygons pCirc 1 rngCirc = .ok fs ∧
      ∃ f ∈ fs, ∃ pt ∈ f.ring, 85 < pt.2 := by
  refine ⟨?_, ?_, ?_⟩
  · refine ⟨?_, ?_, ?_, ?_⟩ <;> norm_num [pCirc]
  · intro i
    refine ⟨?_, ?_, ?_, ?_, ?_, ?_, ?_, ?_⟩
    · norm_num [rngCirc]
    · norm_num [rngCirc]
    · norm_num [rngCirc]
    · norm_num [rngCirc]
    · norm_num [rngCirc, pCirc]
    · norm_num [rngCirc, pCirc]
    · have h3 : (rngCirc i).shapeIdx = 3 := rfl
      rw [h3]
      decide
    · norm_num [rngCirc]
  · refine ⟨[fCirc], runCirc, fCirc, List.mem_singleton.2 rfl, ?_⟩
    have hring : fCirc.ring = _create_circle 60 0 25 50 := by
      show (rasterize (rngCirc 0) ShapeChoice.circle).1 = _create_circle 60 0 25 50
      show _create_circle (rngCirc 0).lat (rngCirc 0).lon
        (latRadiusDeg (rngCirc 0).size)
        (lonRadiusDeg (rngCirc 0).size (rngCirc 0).lat) = _create_circle 60 0 25 50
      rw [show (rngCirc 0).lat = 60 from rfl, show (rngCirc 0).lon = 0 from rfl,
        show (rngCirc 0).size = 2775 from rfl, circ_lat_radius, circ_lon_radius]
    refine ⟨pointAt 60 0 ((25 + 50) / 2) ((25 + 50) / 2) 64 16, ?_, ?_⟩
    · rw [hring]
      unfold _create_circle closeRing
      apply List.mem_append_left
      exact List.mem_map.2 ⟨16, List.mem_range.2 (by norm_num), rfl⟩
    · show (85 : ℝ) <
        60 + (25 + 50) / 2 * Real.sin (2 * Real.pi * ((16 : ℕ) : ℝ) / ((64 : ℕ) : ℝ))
      rw [show 2 * Real.pi * ((16 : ℕ) : ℝ) / ((64 : ℕ) : ℝ) = Real.pi / 2 by
        push_cast; ring]
      rw [Real.sin_pi_div_two]
      norm_num

/-- C2 counterexample: the Generation Parameters `pBad` violate the
documented precondition (`min_size_km = 5 > 1 = max_size_km`), yet batch
generation succeeds and returns a feature collection instead of surfacing any
parameter error: the code contains no parameter validation at all. -/
theorem c2_counterexample :
    pBad.max_size_km < pBad.min_size_km ∧
    ∃ fs, generate_mock_polygons pBad 1 rngBad = .ok fs :=
  ⟨by norm_num [pBad], ⟨[fBad], runBad⟩⟩

/-- C2 (amended): batch generation performs no parameter validation; a call
with invalid Generation Parameters (here `min_size_km > max_size_km`) is not
rejected before generation: whenever the first candidate draw is non-wrapping
and its shape index is in range, the call returns a normal one-feature batch
and no error of any kind. -/
theorem c2_no_parameter_validation (p : Params) (rng : ℕ → AttemptDraws)
    (hbad : p.max_size_km < p.min_size_km)
    (hnw : ¬ drawWraps (rng 0))
    (hidx : (rng 0).shapeIdx < (shape_types p).length) :
    ∃ fs, generate_mock_polygons p 1 rng = .ok fs ∧ fs.length = 1 := by
  obtain ⟨c, hc⟩ : ∃ c, (shape_types p).get? (rng 0).shapeIdx = some c :=
    ⟨_, List.get?_eq_get hidx⟩
  exact ⟨_, run_one p rng c hnw hc, rfl⟩

/-- Witness for `c2_no_parameter_validation` at the concrete invalid
parameters `pBad`. -/
theorem c2_no_parameter_validation_witness :
    ∃ fs, generate_mock_polygons pBad 1 rngBad = .ok fs ∧ fs.length = 1 :=
  c2_no_parameter_validation pBad rngBad (by norm_num [pBad]) rngBad_not_wrap
    (by have h0 : (rngBad 0).shapeIdx = 0 := rfl
        rw [h0]
        decide)
